import Mathlib

/-!
Shallow embedding of the FREEDOM arbitrage engine
(src/calculators/arbitrage.py, src/utils/advanced_monitors.py,
src/utils/bookmaker_classifier.py, config/settings.py).

Numeric odds values are modelled as rationals; Python division is modelled
by a checked division `cdiv` returning `Option` so that a `ZeroDivisionError`
corresponds to `none`.  Strings are Lean strings; Python dicts keyed by
strings are association lists in insertion order.
-/

set_option maxRecDepth 16000

namespace Freedom

/-! ## Configuration constants (config/settings.py) -/

def MAX_ROI_THRESHOLD : ℚ := 15

/-- The 1.5 percent profit floor, written as a normalised rational. -/
def MIN_ROI_THRESHOLD : ℚ := mkRat 3 2

def DEFAULT_TOTAL_INVESTMENT : ℚ := 1000

def ENABLE_SMART_ROUNDING : Bool := true

def ENABLE_RISK_REPORTER : Bool := true

def ENABLE_DRIFT_TRACKER : Bool := true

def DRIFT_THRESHOLD_PERCENT : ℚ := 5

def DRIFT_VALUE_THRESHOLD : ℚ := 5

def SHARP_BOOKMAKERS : List String := ["pinnacle", "betfair", "bet365"]

def SOFT_BOOKMAKERS : List String := ["1xbet", "unibet", "williamhill", "marathonbet"]

def DRIFT_SHARP_BOOKMAKERS : List String := ["pinnacle", "betfair"]

def HIGH_RISK_BOOKMAKERS : List String := ["Kwiff", "InternationalBookieX"]

/-- The BOOKMAKER_OVERTIME_RULES dict of config/settings.py.  The Python
dict literal repeats the keys Unibet, William Hill, 1xBet and Pinnacle; in
Python the later (soccer-section) value wins while the key keeps its first
insertion position, so the resolved dict is the list below. -/
def BOOKMAKER_OVERTIME_RULES : List (String × String) :=
  [("PointsBet", "includes_overtime"),
   ("DraftKings", "includes_overtime"),
   ("FanDuel", "includes_overtime"),
   ("BetMGM", "includes_overtime"),
   ("Caesars", "includes_overtime"),
   ("Unibet", "regulation_only"),
   ("William Hill", "regulation_only"),
   ("1xBet", "regulation_only"),
   ("Pinnacle", "regulation_only"),
   ("Kwiff", "regulation_only"),
   ("Betfair", "regulation_only"),
   ("Bet365", "regulation_only"),
   ("Ladbrokes", "regulation_only")]

/-! ## String and dictionary helpers -/

/-- Python `needle in hay` substring test, on character lists. -/
def subAux (needle : List Char) : List Char → Bool
  | [] => needle.isEmpty
  | c :: rest => needle.isPrefixOf (c :: rest) || subAux needle rest

/-- Python `needle in hay` on strings. -/
def strIn (needle hay : String) : Bool := subAux needle.data hay.data

/-- Python `s.lower()`, modelled characterwise (all names in this code base
are ASCII, where Char.toLower agrees with Python).  Defined on the character
list so that it reduces inside the kernel. -/
def strLower (s : String) : String := ⟨s.data.map Char.toLower⟩

/-- Python `s.split(sep)[0]` for a one-character separator: the characters
before the first underscore (the whole string when none occurs). -/
def splitFirst (s : String) : String := ⟨s.data.takeWhile (fun c => c ≠ '_')⟩

/-- Python `d.get(k)` on an insertion-ordered string dict: first exact key
match. -/
def dictFind (db : List (String × String)) (k : String) : Option String :=
  match db with
  | [] => none
  | (k2, v) :: rest => if k2 = k then some v else dictFind rest k

/-- Python `d.get(k, dflt)`. -/
def dictGet (db : List (String × String)) (k : String) (dflt : String) : String :=
  (dictFind db k).getD dflt

/-! ## ArbitrageCalculator.detect_two_way_arbitrage / detect_three_way_arbitrage -/

/-- Checked division: Python raises ZeroDivisionError on a zero denominator,
modelled as `none`. -/
def cdiv (a b : ℚ) : Option ℚ := if b = 0 then none else some (a / b)

/-- arbitrage.py lines 35-62: the two-way arbitrage test.  Returns
`some (is_arb, roi)` on normal return, `none` when Python would raise. -/
def detect_two_way_arbitrage (odds_a odds_b : ℚ) : Option (Bool × ℚ) :=
  if odds_a ≤ 0 ∨ odds_b ≤ 0 then some (false, 0)
  else do
    let ia ← cdiv 1 odds_a
    let ib ← cdiv 1 odds_b
    let implied_total := ia + ib
    if implied_total = 0 then pure (false, 0)
    else if implied_total < 1 then do
      let inv ← cdiv 1 implied_total
      pure (true, (inv - 1) * 100)
    else pure (false, 0)

/-- arbitrage.py lines 64-90: the three-way arbitrage test. -/
def detect_three_way_arbitrage (odds_1 odds_x odds_2 : ℚ) : Option (Bool × ℚ) :=
  if odds_1 ≤ 0 ∨ odds_x ≤ 0 ∨ odds_2 ≤ 0 then some (false, 0)
  else do
    let i1 ← cdiv 1 odds_1
    let ix ← cdiv 1 odds_x
    let i2 ← cdiv 1 odds_2
    let implied_total := i1 + ix + i2
    if implied_total = 0 then pure (false, 0)
    else if implied_total < 1 then do
      let inv ← cdiv 1 implied_total
      pure (true, (inv - 1) * 100)
    else pure (false, 0)

/-! ## ArbitrageCalculator.calculate_stakes and rounding -/

/-- Floor of a rational via floor division of numerator by denominator. -/
def ratFloor (q : ℚ) : ℤ := q.num.fdiv q.den

/-- Python round(x): round half to even, on rationals. -/
def pythonRound (q : ℚ) : ℤ :=
  let f := ratFloor q
  let r := q - f
  if r < 1/2 then f
  else if 1/2 < r then f + 1
  else if f % 2 = 0 then f else f + 1

/-- arbitrage.py lines 123-140: the anti-detection rounding tiers. -/
def smart_round (amount : ℚ) : ℚ :=
  if 1000 < amount then (pythonRound (amount / 100)) * 100
  else if 100 < amount then (pythonRound (amount / 50)) * 50
  else (pythonRound (amount / 5)) * 5

/-- arbitrage.py line 106: sum of inverse odds. -/
def inverse_odds_sum (odds_list : List ℚ) : ℚ :=
  (odds_list.map (fun odds => 1 / odds)).sum

/-- arbitrage.py line 110: the stake of one leg before rounding. -/
def raw_stakes (total_investment : ℚ) (odds_list : List ℚ) : List ℚ :=
  odds_list.map (fun odds => (total_investment * (1 / odds)) / inverse_odds_sum odds_list)

/-- arbitrage.py lines 92-121: stake allocation with the configured rounding
applied to each leg. -/
def calculate_stakes (total_investment : ℚ) (odds_list : List ℚ) : List ℚ :=
  odds_list.map (fun odds =>
    let stake := (total_investment * (1 / odds)) / inverse_odds_sum odds_list
    if ENABLE_SMART_ROUNDING then smart_round stake
    else (pythonRound (stake / 5)) * 5)

/-- Every member of a zip of a mapped list with the original list pairs a
mapped element with its source element. -/
theorem mem_zip_map_self {α β : Type} (f : α → β) (l : List α) (p : β × α)
    (hp : p ∈ (l.map f).zip l) : ∃ o, o ∈ l ∧ p = (f o, o) := by
  induction l with
  | nil => simp at hp
  | cons x xs ih =>
    simp only [List.map_cons, List.zip_cons_cons, List.mem_cons] at hp
    rcases hp with h | h
    · exact ⟨x, by simp, h⟩
    · obtain ⟨o, ho, rfl⟩ := ih h
      exact ⟨o, by simp [ho], rfl⟩

/-- C1: for positive odds the two-way test reports an arbitrage exactly when
the implied probabilities sum below one, returning the ROI formula in that
case and ROI zero otherwise. -/
theorem detect_two_way_arbitrage_spec (a b : ℚ) (ha : 0 < a) (hb : 0 < b) :
    detect_two_way_arbitrage a b =
      some (if 1/a + 1/b < 1 then (true, (1/(1/a + 1/b) - 1) * 100) else (false, 0)) := by
  have hguard : ¬ (a ≤ 0 ∨ b ≤ 0) := by push_neg; exact ⟨ha, hb⟩
  have hsumpos : (0:ℚ) < 1/a + 1/b := by positivity
  simp only [detect_two_way_arbitrage, if_neg hguard, cdiv, if_neg ha.ne',
    if_neg hb.ne', Option.bind_eq_bind, Option.some_bind, one_div,
    if_neg (by positivity : ¬ (a⁻¹ + b⁻¹ = 0))]
  by_cases hlt : a⁻¹ + b⁻¹ < 1
  · simp [hlt, if_neg hsumpos.ne', one_div]
  · simp [hlt]

/-- Witness for C1 at odds 3 and 3: implied total 2/3 gives an arbitrage
with ROI 50. -/
theorem detect_two_way_arbitrage_spec_witness :
    detect_two_way_arbitrage 3 3 = some (true, 50) := by
  have h := detect_two_way_arbitrage_spec 3 3 (by norm_num) (by norm_num)
  norm_num at h
  exact h

/-- C9: with either input nonpositive the two-way test returns normally with
no arbitrage and ROI zero; no division is reached (the result is `some`,
never the `none` that models ZeroDivisionError). -/
theorem detect_two_way_arbitrage_nonpositive (a b : ℚ) (h : a ≤ 0 ∨ b ≤ 0) :
    detect_two_way_arbitrage a b = some (false, 0) := by
  simp only [detect_two_way_arbitrage, if_pos h]

/-- Witness for C9 at odds 0 and -2. -/
theorem detect_two_way_arbitrage_nonpositive_witness :
    detect_two_way_arbitrage 0 (-2) = some (false, 0) :=
  detect_two_way_arbitrage_nonpositive 0 (-2) (Or.inl (by norm_num))

/-- C2 (amended): for a non-negative total investment and a nonempty list of
positive odds, the pre-rounding stakes are non-negative, sum exactly to the
total investment, and each leg pays out the same constant
total / inverse_odds_sum. -/
theorem raw_stakes_spec (t : ℚ) (l : List ℚ) (htot : 0 ≤ t) (hne : l ≠ [])
    (hpos : ∀ o ∈ l, 0 < o) :
    (∀ s ∈ raw_stakes t l, 0 ≤ s) ∧
    (raw_stakes t l).sum = t ∧
    (∀ p ∈ (raw_stakes t l).zip l, p.1 * p.2 = t / inverse_odds_sum l) := by
  have hW : 0 < inverse_odds_sum l := by
    refine List.sum_pos _ ?_ ?_
    · intro x hx
      obtain ⟨o, ho, rfl⟩ := List.mem_map.mp hx
      have := hpos o ho
      positivity
    · simpa using hne
  refine ⟨?_, ?_, ?_⟩
  · intro s hs
    obtain ⟨o, ho, rfl⟩ := List.mem_map.mp hs
    have ho' := hpos o ho
    positivity
  · have hrw : raw_stakes t l = l.map (fun o => (t / inverse_odds_sum l) * (1 / o)) := by
      unfold raw_stakes
      refine List.map_congr_left ?_
      intro o _
      ring
    rw [hrw, List.sum_map_mul_left]
    have : ((l.map fun o => 1 / o).sum : ℚ) = inverse_odds_sum l := rfl
    rw [this, div_mul_cancel₀]
    exact hW.ne'
  · intro p hp
    obtain ⟨o, ho, rfl⟩ := mem_zip_map_self _ l p hp
    have ho' : o ≠ 0 := (hpos o ho).ne'
    field_simp
    ring

/-- Witness for C2 at total 1000 and odds [2, 2]. -/
theorem raw_stakes_spec_witness :
    (∀ s ∈ raw_stakes 1000 [2, 2], 0 ≤ s) ∧
    (raw_stakes 1000 [2, 2]).sum = 1000 ∧
    (∀ p ∈ (raw_stakes 1000 [2, 2]).zip [2, 2], p.1 * p.2 = 1000 / inverse_odds_sum [2, 2]) :=
  raw_stakes_spec 1000 [2, 2] (by norm_num) (by simp) (by norm_num)

/-- C2 counterexample to the claim as stated: with the empty odds list the
stakes sum to 0, not to the total investment of 1000, and with a negative
total investment the stakes are negative. -/
theorem raw_stakes_counterexample :
    (raw_stakes 1000 []).sum = 0 ∧ raw_stakes (-100) [2, 2] = [-50, -50] := by
  constructor
  · rfl
  · norm_num [raw_stakes, inverse_odds_sum]

/-! ## ArbitrageCalculator.apply_safety_filters -/

/-- Rejection reasons of the safety-filter chain, modelling the reason
strings of arbitrage.py lines 159, 163 and 182. -/
inductive RejectReason where
  | PalpableError
  | LowProfit
  | RuleMismatch
deriving DecidableEq

/-- arbitrage.py lines 142-192: the three-filter safety chain.  The
HIGH_RISK_BOOKMAKERS scan and the soccer branch only log warnings and never
change the returned value, so they do not appear in the result. -/
def apply_safety_filters (roi : ℚ) (bookmaker_a bookmaker_b sport : String) :
    Bool × Option RejectReason :=
  if MAX_ROI_THRESHOLD < roi then (false, some .PalpableError)
  else if roi < MIN_ROI_THRESHOLD then (false, some .LowProfit)
  else if ENABLE_RISK_REPORTER then
    if strIn "basketball" (strLower sport) then
      let rule_a := dictGet BOOKMAKER_OVERTIME_RULES bookmaker_a "unknown"
      let rule_b := dictGet BOOKMAKER_OVERTIME_RULES bookmaker_b "unknown"
      if rule_a ≠ rule_b ∧ rule_a ≠ "unknown" ∧ rule_b ≠ "unknown" then
        (false, some .RuleMismatch)
      else (true, none)
    else (true, none)
  else (true, none)

/-- advanced_monitors.py lines 350-353: first entry of the rules dict whose
lowercased key and lowercased cleaned name contain one another. -/
def ruleScan (db : List (String × String)) (clean_name : String) : String :=
  match db with
  | [] => "unknown"
  | (key, rule) :: rest =>
    if strIn (strLower key) (strLower clean_name) || strIn (strLower clean_name) (strLower key) then rule
    else ruleScan rest clean_name

/-- advanced_monitors.py lines 339-354: RiskReporter fuzzy settlement-rule
lookup; strips the region suffix then scans with two-way substring match.
The sport argument is accepted and ignored, as in the source. -/
def get_settlement_rule (bookmaker : String) (_sport : String) : String :=
  ruleScan BOOKMAKER_OVERTIME_RULES (splitFirst bookmaker)

/-- C3: the filter chain rejects with PalpableError whenever the ROI exceeds
the ceiling, regardless of bookmakers and sport, and rejects with LowProfit
whenever the ROI passes the ceiling but lies below the floor. -/
theorem apply_safety_filters_order (roi : ℚ) (a b sport : String) :
    (MAX_ROI_THRESHOLD < roi →
      apply_safety_filters roi a b sport = (false, some RejectReason.PalpableError)) ∧
    (roi ≤ MAX_ROI_THRESHOLD → roi < MIN_ROI_THRESHOLD →
      apply_safety_filters roi a b sport = (false, some RejectReason.LowProfit)) := by
  constructor
  · intro h
    simp [apply_safety_filters, h]
  · intro h1 h2
    simp [apply_safety_filters, not_lt.mpr h1, h2]

/-- Witness for C3: ROI 20 against the ceiling of 15 is rejected as a
palpable error, and ROI 1 below the floor of 1.5 as low profit. -/
theorem apply_safety_filters_order_witness :
    apply_safety_filters 20 "bookieA" "bookieB" "basketball_nba"
      = (false, some RejectReason.PalpableError) ∧
    apply_safety_filters 1 "bookieA" "bookieB" "basketball_nba"
      = (false, some RejectReason.LowProfit) :=
  ⟨(apply_safety_filters_order 20 "bookieA" "bookieB" "basketball_nba").1
      (by norm_num [MAX_ROI_THRESHOLD]),
   (apply_safety_filters_order 1 "bookieA" "bookieB" "basketball_nba").2
      (by norm_num [MAX_ROI_THRESHOLD]) (by norm_num [MIN_ROI_THRESHOLD])⟩

/-- C4 counterexample: the fuzzy RuleDatabase lookup resolves draftkings and
Kwiff to known, differing settlement rules, yet the safety-filter chain
passes the candidate, because the filter uses an exact case-sensitive dict
lookup of the raw name, not the fuzzy lookup. -/
theorem apply_safety_filters_exact_lookup_counterexample :
    get_settlement_rule "draftkings" "basketball" = "includes_overtime" ∧
    get_settlement_rule "Kwiff" "basketball" = "regulation_only" ∧
    apply_safety_filters 5 "draftkings" "Kwiff" "basketball_nba" = (true, none) := by
  refine ⟨by decide, by decide, by decide⟩

/-- C4 (amended): for an ROI between the floor and the ceiling the
rule-mismatch filter resolves each rule by exact dict lookup of the full
bookmaker name with default unknown; for basketball-family sports it
rejects with RuleMismatch exactly when both rules are known and differ, and
for every other sport it rejects nothing. -/
theorem apply_safety_filters_rule_mismatch (roi : ℚ) (a b sport : String)
    (h1 : MIN_ROI_THRESHOLD ≤ roi) (h2 : roi ≤ MAX_ROI_THRESHOLD) :
    (strIn "basketball" (strLower sport) = true →
      (apply_safety_filters roi a b sport = (false, some RejectReason.RuleMismatch) ↔
        (dictGet BOOKMAKER_OVERTIME_RULES a "unknown" ≠ dictGet BOOKMAKER_OVERTIME_RULES b "unknown" ∧
         dictGet BOOKMAKER_OVERTIME_RULES a "unknown" ≠ "unknown" ∧
         dictGet BOOKMAKER_OVERTIME_RULES b "unknown" ≠ "unknown"))) ∧
    (strIn "basketball" (strLower sport) = false →
      apply_safety_filters roi a b sport = (true, none)) := by
  have hn1 : ¬ MAX_ROI_THRESHOLD < roi := not_lt.mpr h2
  have hn2 : ¬ roi < MIN_ROI_THRESHOLD := not_lt.mpr h1
  constructor
  · intro hb
    simp only [apply_safety_filters, if_neg hn1, if_neg hn2, ENABLE_RISK_REPORTER,
      if_pos rfl, hb, if_pos]
    split_ifs with hc
    · simp [hc]
    · simp [hc]
  · intro hb
    simp [apply_safety_filters, if_neg hn1, if_neg hn2, ENABLE_RISK_REPORTER, hb]

/-- Witness for C4: DraftKings (exact key, includes overtime) against Kwiff
(regulation only) on basketball is rejected as a rule mismatch, while the
same pair on tennis passes. -/
theorem apply_safety_filters_rule_mismatch_witness :
    apply_safety_filters 5 "DraftKings" "Kwiff" "basketball_nba"
      = (false, some RejectReason.RuleMismatch) ∧
    apply_safety_filters 5 "DraftKings" "Kwiff" "tennis_atp" = (true, none) :=
  ⟨((apply_safety_filters_rule_mismatch 5 "DraftKings" "Kwiff" "basketball_nba"
      (by norm_num [MIN_ROI_THRESHOLD]) (by norm_num [MAX_ROI_THRESHOLD])).1
      (by decide)).mpr (by refine ⟨by decide, by decide, by decide⟩),
   (apply_safety_filters_rule_mismatch 5 "DraftKings" "Kwiff" "tennis_atp"
      (by norm_num [MIN_ROI_THRESHOLD]) (by norm_num [MAX_ROI_THRESHOLD])).2
      (by decide)⟩

/-! ## ArbitrageCalculator.find_arbitrage_opportunities -/

/-- One row of parsed_odds: a bookmaker quote for one outcome. -/
structure OddsEntry where
  bookmaker : String
  outcome : String
  odds : ℚ
deriving DecidableEq, Inhabited

/-- One leg of an opportunity (arbitrage.py lines 266-277). -/
structure Bet where
  outcome : String
  odds : ℚ
  bookmaker : String
deriving DecidableEq, Inhabited

/-- The event fields read by find_arbitrage_opportunities.  The source reads
them with dict .get defaults; here the caller supplies the resolved value. -/
structure Event where
  id : String
  sport_key : String
  sport_title : String
  home_team : String
  away_team : String
  commence_time : String
deriving DecidableEq, Inhabited

/-- An arbitrage opportunity record (arbitrage.py lines 260-282). -/
structure Opportunity where
  event_id : String
  sport : String
  event_name : String
  commence_time : String
  roi : ℚ
  bets : List Bet
  stakes : List ℚ
deriving DecidableEq, Inhabited

/-- Adds one entry to the per-outcome grouping, keeping Python dict
insertion order. -/
def addEntry (acc : List (String × List OddsEntry)) (e : OddsEntry) :
    List (String × List OddsEntry) :=
  match acc with
  | [] => [(e.outcome, [e])]
  | (o, es) :: rest =>
    if o = e.outcome then (o, es ++ [e]) :: rest else (o, es) :: addEntry rest e

/-- arbitrage.py lines 212-217: group parsed odds by outcome name. -/
def groupByOutcome (entries : List OddsEntry) : List (String × List OddsEntry) :=
  entries.foldl addEntry []

/-- arbitrage.py lines 239-284: one two-way bookmaker combination.  Returns
the opportunity when the pair survives the same-bookmaker skip, the
arbitrage test and the safety filters. -/
def mkTwoWayOpp (event : Event) (outcome_a outcome_b : String) (ea eb : OddsEntry) :
    Option Opportunity :=
  if ea.bookmaker = eb.bookmaker then none
  else
    match detect_two_way_arbitrage ea.odds eb.odds with
    | some (true, roi) =>
      if (apply_safety_filters roi ea.bookmaker eb.bookmaker event.sport_key).1 then
        some { event_id := event.id
               sport := event.sport_title
               event_name := event.home_team ++ " vs " ++ event.away_team
               commence_time := event.commence_time
               roi := roi
               bets := [{ outcome := outcome_a, odds := ea.odds, bookmaker := ea.bookmaker },
                        { outcome := outcome_b, odds := eb.odds, bookmaker := eb.bookmaker }]
               stakes := calculate_stakes DEFAULT_TOTAL_INVESTMENT [ea.odds, eb.odds] }
      else none
    | _ => none

/-- arbitrage.py lines 289-340: one three-way combination.  The skip guard
is the Python set-cardinality test: a three-element set has fewer than two
members exactly when all three bookmakers coincide.  The filters receive the
first and third legs, as in the source. -/
def mkThreeWayOpp (event : Event) (o1 ox o2 : String) (e1 ex e2 : OddsEntry) :
    Option Opportunity :=
  if e1.bookmaker = ex.bookmaker ∧ ex.bookmaker = e2.bookmaker then none
  else
    match detect_three_way_arbitrage e1.odds ex.odds e2.odds with
    | some (true, roi) =>
      if (apply_safety_filters roi e1.bookmaker e2.bookmaker event.sport_key).1 then
        some { event_id := event.id
               sport := event.sport_title
               event_name := event.home_team ++ " vs " ++ event.away_team
               commence_time := event.commence_time
               roi := roi
               bets := [{ outcome := o1, odds := e1.odds, bookmaker := e1.bookmaker },
                        { outcome := ox, odds := ex.odds, bookmaker := ex.bookmaker },
                        { outcome := o2, odds := e2.odds, bookmaker := e2.bookmaker }]
               stakes := calculate_stakes DEFAULT_TOTAL_INVESTMENT [e1.odds, ex.odds, e2.odds] }
      else none
    | _ => none

/-- arbitrage.py lines 194-342: scan all bookmaker combinations of one
event.  Markets with other than two or three distinct outcomes yield no
opportunities.  The drift-tracker update in the source mutates separate
state and does not influence the returned list; it is modelled by
track_value_opportunity below. -/
def find_arbitrage_opportunities (event : Event) (parsed_odds : List OddsEntry) :
    List Opportunity :=
  match groupByOutcome parsed_odds with
  | [(outcome_a, la), (outcome_b, lb)] =>
    la.flatMap fun ea => lb.filterMap fun eb => mkTwoWayOpp event outcome_a outcome_b ea eb
  | [(o1, l1), (ox, lx), (o2, l2)] =>
    l1.flatMap fun e1 => lx.flatMap fun ex => l2.filterMap fun e2 =>
      mkThreeWayOpp event o1 ox o2 e1 ex e2
  | _ => []

/-- A produced two-way opportunity carries the two source bookmakers, which
the same-bookmaker skip keeps distinct. -/
theorem mkTwoWayOpp_bookmakers (event : Event) (oa ob : String) (ea eb : OddsEntry)
    (opp : Opportunity) (h : mkTwoWayOpp event oa ob ea eb = some opp) :
    opp.bets.map Bet.bookmaker = [ea.bookmaker, eb.bookmaker] ∧
    ea.bookmaker ≠ eb.bookmaker := by
  unfold mkTwoWayOpp at h
  split at h
  · exact absurd h (by simp)
  next hne =>
    split at h
    next roi heqdet =>
      split at h
      · injection h with h
        subst h
        exact ⟨rfl, hne⟩
      · exact absurd h (by simp)
    next => exact absurd h (by simp)

/-- A produced three-way opportunity carries the three source bookmakers,
which the set-cardinality skip keeps from being all equal. -/
theorem mkThreeWayOpp_bookmakers (event : Event) (o1 ox o2 : String) (e1 ex e2 : OddsEntry)
    (opp : Opportunity) (h : mkThreeWayOpp event o1 ox o2 e1 ex e2 = some opp) :
    opp.bets.map Bet.bookmaker = [e1.bookmaker, ex.bookmaker, e2.bookmaker] ∧
    ¬(e1.bookmaker = ex.bookmaker ∧ ex.bookmaker = e2.bookmaker) := by
  unfold mkThreeWayOpp at h
  split at h
  · exact absurd h (by simp)
  next hne =>
    split at h
    next roi heqdet =>
      split at h
      · injection h with h
        subst h
        exact ⟨rfl, hne⟩
      · exact absurd h (by simp)
    next => exact absurd h (by simp)

/-- C5 counterexample: a three-outcome event where one bookmaker quotes two
outcomes produces an Opportunity whose first two bets share that bookmaker. -/
theorem find_arbitrage_opportunities_shared_bookmaker_cex :
    (find_arbitrage_opportunities
        { id := "ev1", sport_key := "tennis_atp", sport_title := "Tennis",
          home_team := "P1", away_team := "P2", commence_time := "t0" }
        [{ bookmaker := "alpha", outcome := "H", odds := mkRat 33 10 },
         { bookmaker := "alpha", outcome := "D", odds := mkRat 33 10 },
         { bookmaker := "beta", outcome := "A", odds := mkRat 17 5 }]).map
      (fun o => o.bets.map Bet.bookmaker) = [["alpha", "alpha", "beta"]] := by
  with_unfolding_all decide

/-- C5 (amended): every two-way Opportunity has two bets with distinct
bookmakers; every three-way Opportunity has three bets whose bookmakers are
not all equal, though two of them may coincide. -/
theorem find_arbitrage_opportunities_bookmakers (ev : Event) (parsed_odds : List OddsEntry)
    (opp : Opportunity) (hmem : opp ∈ find_arbitrage_opportunities ev parsed_odds) :
    (∃ b1 b2, opp.bets.map Bet.bookmaker = [b1, b2] ∧ b1 ≠ b2) ∨
    (∃ b1 b2 b3, opp.bets.map Bet.bookmaker = [b1, b2, b3] ∧ ¬(b1 = b2 ∧ b2 = b3)) := by
  unfold find_arbitrage_opportunities at hmem
  split at hmem
  · rw [List.mem_flatMap] at hmem
    obtain ⟨ea, _, hmem⟩ := hmem
    rw [List.mem_filterMap] at hmem
    obtain ⟨eb, _, heq⟩ := hmem
    obtain ⟨hmap, hne⟩ := mkTwoWayOpp_bookmakers _ _ _ _ _ _ heq
    exact Or.inl ⟨_, _, hmap, hne⟩
  · rw [List.mem_flatMap] at hmem
    obtain ⟨e1, _, hmem⟩ := hmem
    rw [List.mem_flatMap] at hmem
    obtain ⟨ex, _, hmem⟩ := hmem
    rw [List.mem_filterMap] at hmem
    obtain ⟨e2, _, heq⟩ := hmem
    obtain ⟨hmap, hne⟩ := mkThreeWayOpp_bookmakers _ _ _ _ _ _ _ _ heq
    exact Or.inr ⟨_, _, _, hmap, hne⟩
  · simp at hmem

/-- Sample inputs for the C5 witness: the concrete event and odds of the
counterexample. -/
def exEvent : Event :=
  { id := "ev1", sport_key := "tennis_atp", sport_title := "Tennis",
    home_team := "P1", away_team := "P2", commence_time := "t0" }

/-- Sample parsed odds for the C5 witness. -/
def exOdds : List OddsEntry :=
  [{ bookmaker := "alpha", outcome := "H", odds := mkRat 33 10 },
   { bookmaker := "alpha", outcome := "D", odds := mkRat 33 10 },
   { bookmaker := "beta", outcome := "A", odds := mkRat 17 5 }]

/-- The single opportunity produced from the sample inputs. -/
def exOpp : Opportunity := (find_arbitrage_opportunities exEvent exOdds).getD 0 default

/-- Witness for C5 applied to the sample three-way opportunity. -/
theorem find_arbitrage_opportunities_bookmakers_witness :
    (∃ b1 b2, exOpp.bets.map Bet.bookmaker = [b1, b2] ∧ b1 ≠ b2) ∨
    (∃ b1 b2 b3, exOpp.bets.map Bet.bookmaker = [b1, b2, b3] ∧ ¬(b1 = b2 ∧ b2 = b3)) :=
  find_arbitrage_opportunities_bookmakers exEvent exOdds exOpp (by with_unfolding_all decide)

/-! ## ArbitrageCalculator.track_odds_drift -/

/-- Python abs on rationals. -/
def pyAbs (q : ℚ) : ℚ := if q < 0 then -q else q

/-- Drift alert record of arbitrage.py lines 368-374. -/
structure DriftAlert where
  event_id : String
  outcome : String
  previous_odds : ℚ
  current_odds : ℚ
  drift_percent : ℚ
deriving DecidableEq, Inhabited

/-- Association-list lookup for a string-keyed Python dict. -/
def lookupKey {β : Type} (m : List (String × β)) (k : String) : Option β :=
  match m with
  | [] => none
  | (k2, v) :: rest => if k2 = k then some v else lookupKey rest k

/-- Python dict assignment m[k] = v: replace the value in place when the key
exists, otherwise append the pair. -/
def setKey {β : Type} (m : List (String × β)) (k : String) (v : β) :
    List (String × β) :=
  match m with
  | [] => [(k, v)]
  | (k2, v2) :: rest => if k2 = k then (k2, v) :: rest else (k2, v2) :: setKey rest k v

/-- Looking up the just-assigned key returns the assigned value. -/
theorem lookupKey_setKey_self {β : Type} (m : List (String × β)) (k : String) (v : β) :
    lookupKey (setKey m k v) k = some v := by
  induction m with
  | nil => simp [setKey, lookupKey]
  | cons hd tl ih =>
    obtain ⟨k2, v2⟩ := hd
    by_cases hk : k2 = k
    · simp [setKey, lookupKey, hk]
    · simp [setKey, lookupKey, hk, ih]

/-- Assignment at one key leaves every other key unchanged. -/
theorem lookupKey_setKey_ne {β : Type} (m : List (String × β)) (k k2 : String) (v : β)
    (h : k2 ≠ k) : lookupKey (setKey m k v) k2 = lookupKey m k2 := by
  have h2 : ¬ k = k2 := fun hh => h hh.symm
  induction m with
  | nil => simp [setKey, lookupKey, h2]
  | cons hd tl ih =>
    obtain ⟨k3, v3⟩ := hd
    by_cases hk : k3 = k
    · subst hk
      simp [setKey, lookupKey, h2]
    · by_cases hk2 : k3 = k2 <;> simp [setKey, lookupKey, hk, hk2, ih, h]

/-- arbitrage.py lines 361-374: scan the current odds map in order and
return the first outcome whose move against the stored previous value
exceeds the threshold.  A stored previous value of zero would raise in
Python; here total rational division makes the scan skip it. -/
def findDrift (event_id : String) (prev : List (String × ℚ)) :
    List (String × ℚ) → Option DriftAlert
  | [] => none
  | (outcome, current_value) :: rest =>
    match lookupKey prev outcome with
    | some prev_value =>
      let change_pct := pyAbs ((current_value - prev_value) / prev_value) * 100
      if DRIFT_THRESHOLD_PERCENT < change_pct then
        some { event_id := event_id, outcome := outcome, previous_odds := prev_value,
               current_odds := current_value, drift_percent := change_pct }
      else findDrift event_id prev rest
    | none => findDrift event_id prev rest

/-- arbitrage.py lines 344-378: the plain drift tracker, with the mutable
self.previous_odds passed and returned explicitly.  The early return on a
drift alert leaves the stored map untouched. -/
def track_odds_drift (previous_odds : List (String × List (String × ℚ)))
    (event_id : String) (current_odds : List (String × ℚ)) :
    Option DriftAlert × List (String × List (String × ℚ)) :=
  if ENABLE_DRIFT_TRACKER = false then (none, previous_odds)
  else
    match lookupKey previous_odds event_id with
    | some prev =>
      match findDrift event_id prev current_odds with
      | some alert => (some alert, previous_odds)
      | none => (none, setKey previous_odds event_id current_odds)
    | none => (none, setKey previous_odds event_id current_odds)

/-- C6 counterexample: a call that emits a drift alert returns before the
store line, so the stored previous-cycle map keeps the old prices instead of
the current_odds passed to the call. -/
theorem track_odds_drift_counterexample :
    track_odds_drift [("e1", [("home", 2)])] "e1" [("home", 3)]
      = (some { event_id := "e1", outcome := "home", previous_odds := 2,
                current_odds := 3, drift_percent := 50 },
         [("e1", [("home", 2)])]) ∧
    [("home", (2:ℚ))] ≠ [("home", (3:ℚ))] := by
  constructor
  · with_unfolding_all decide
  · with_unfolding_all decide

/-- C6 (amended): when no drift alert is emitted the stored map for the
event is overwritten with the current odds; when an alert is emitted the
function returns early and the whole store is left unchanged. -/
theorem track_odds_drift_state (s : List (String × List (String × ℚ)))
    (event_id : String) (current_odds : List (String × ℚ)) :
    ((track_odds_drift s event_id current_odds).1 = none →
      lookupKey (track_odds_drift s event_id current_odds).2 event_id = some current_odds) ∧
    (∀ a, (track_odds_drift s event_id current_odds).1 = some a →
      (track_odds_drift s event_id current_odds).2 = s) := by
  unfold track_odds_drift
  rw [if_neg (by simp [ENABLE_DRIFT_TRACKER])]
  split
  next prev hprev =>
    split
    next alert halert => exact ⟨fun h => by simp at h, fun a ha => rfl⟩
    next hnone =>
      exact ⟨fun _ => lookupKey_setKey_self s event_id current_odds, fun a ha => by simp at ha⟩
  next hnone =>
    exact ⟨fun _ => lookupKey_setKey_self s event_id current_odds, fun a ha => by simp at ha⟩

/-- Witness for C6: a first observation stores the current map, and the
alert call of the counterexample leaves the store unchanged. -/
theorem track_odds_drift_state_witness :
    lookupKey (track_odds_drift [] "e1" [("home", (2:ℚ))]).2 "e1" = some [("home", (2:ℚ))] ∧
    (track_odds_drift [("e1", [("home", 2)])] "e1" [("home", 3)]).2 = [("e1", [("home", (2:ℚ))])] :=
  ⟨(track_odds_drift_state [] "e1" [("home", 2)]).1 (by with_unfolding_all decide),
   (track_odds_drift_state [("e1", [("home", 2)])] "e1" [("home", 3)]).2
     { event_id := "e1", outcome := "home", previous_odds := 2,
       current_odds := 3, drift_percent := 50 } (by with_unfolding_all decide)⟩

/-! ## BookmakerClassifier (src/utils/bookmaker_classifier.py) -/

/-- bookmaker_classifier.py lines 22-40: classify a bookmaker as sharp, soft
or unknown after stripping the region suffix and lowercasing, against the
lowercased configured lists. -/
def classify_bookmaker (bookmaker : String) : String :=
  let clean_name := strLower (splitFirst bookmaker)
  if (SHARP_BOOKMAKERS.map strLower).contains clean_name then "sharp"
  else if (SOFT_BOOKMAKERS.map strLower).contains clean_name then "soft"
  else "unknown"

/-- bookmaker_classifier.py lines 89-107: identify the sharp bookmaker of a
pair. -/
def get_sharp_bookmaker (bookmaker_a bookmaker_b : String) : Option String :=
  if classify_bookmaker bookmaker_a = "sharp" then some bookmaker_a
  else if classify_bookmaker bookmaker_b = "sharp" then some bookmaker_b
  else none

/-- C8 counterexample: pinnacle and betfair both classify as sharp, yet
get_sharp_bookmaker returns the first rather than none. -/
theorem get_sharp_bookmaker_both_sharp_cex :
    classify_bookmaker "pinnacle" = "sharp" ∧
    classify_bookmaker "betfair" = "sharp" ∧
    get_sharp_bookmaker "pinnacle" "betfair" = some "pinnacle" := by
  refine ⟨by decide, by decide, by decide⟩

/-- C8 (amended): get_sharp_bookmaker returns the first argument whenever it
is sharp (also when both are sharp), otherwise the second when it is sharp,
and none when neither is. -/
theorem get_sharp_bookmaker_spec (a b : String) :
    (classify_bookmaker a = "sharp" → get_sharp_bookmaker a b = some a) ∧
    (classify_bookmaker a ≠ "sharp" → classify_bookmaker b = "sharp" →
      get_sharp_bookmaker a b = some b) ∧
    (classify_bookmaker a ≠ "sharp" → classify_bookmaker b ≠ "sharp" →
      get_sharp_bookmaker a b = none) :=
  ⟨fun h => by simp [get_sharp_bookmaker, h],
   fun h1 h2 => by simp [get_sharp_bookmaker, h1, h2],
   fun h1 h2 => by simp [get_sharp_bookmaker, h1, h2]⟩

/-- Witness for C8 across the three cases: sharp first argument, sharp
second argument only, and no sharp argument. -/
theorem get_sharp_bookmaker_spec_witness :
    get_sharp_bookmaker "pinnacle" "betfair" = some "pinnacle" ∧
    get_sharp_bookmaker "1xbet" "pinnacle" = some "pinnacle" ∧
    get_sharp_bookmaker "1xbet" "unibet" = none :=
  ⟨(get_sharp_bookmaker_spec "pinnacle" "betfair").1 (by decide),
   (get_sharp_bookmaker_spec "1xbet" "pinnacle").2.1 (by decide) (by decide),
   (get_sharp_bookmaker_spec "1xbet" "unibet").2.2 (by decide) (by decide)⟩

/-! ## DriftTracker.track_value_opportunity (src/utils/advanced_monitors.py) -/

/-- Stored sharp-consensus snapshot for one event-outcome key.  The
datetime.now() timestamp stored alongside in the source never influences
any decision and is omitted. -/
structure SharpPrice where
  bookmaker : String
  odds : ℚ
deriving DecidableEq, Inhabited

/-- Value-bet alert of advanced_monitors.py lines 108-122.  The
recommendation field is display text derived from the other fields and is
omitted. -/
structure ValueAlert where
  event_id : String
  outcome : String
  soft_bookmaker : String
  soft_odds : ℚ
  sharp_bookmaker : String
  sharp_odds : ℚ
  value_gap : ℚ
deriving DecidableEq, Inhabited

/-- advanced_monitors.py lines 33-124: the value-betting tracker, with the
mutable self.sharp_prices dict passed and returned explicitly.  A stored
sharp price of zero would raise in Python on the soft branch; total rational
division makes the formula evaluate to zero there, and the theorems below
quantify over the literal source formula. -/
def track_value_opportunity (sharp_prices : List (String × SharpPrice))
    (event_id bookmaker outcome : String) (current_odds : ℚ) :
    Option ValueAlert × List (String × SharpPrice) :=
  let clean_bookie := strLower (splitFirst bookmaker)
  let bookie_class := classify_bookmaker bookmaker
  if (DRIFT_SHARP_BOOKMAKERS.map strLower).contains clean_bookie then
    let key := event_id ++ ":" ++ outcome
    match lookupKey sharp_prices key with
    | none =>
      (none, setKey sharp_prices key { bookmaker := bookmaker, odds := current_odds })
    | some prev_sharp =>
      if current_odds < prev_sharp.odds then
        let drop_pct := (prev_sharp.odds - current_odds) / prev_sharp.odds * 100
        if 3 < drop_pct then
          (none, setKey sharp_prices key { bookmaker := bookmaker, odds := current_odds })
        else (none, sharp_prices)
      else (none, sharp_prices)
  else if bookie_class = "soft" then
    let key := event_id ++ ":" ++ outcome
    match lookupKey sharp_prices key with
    | some sp =>
      let value_gap_pct := (current_odds - sp.odds) / sp.odds * 100
      if DRIFT_VALUE_THRESHOLD < value_gap_pct then
        (some { event_id := event_id, outcome := outcome, soft_bookmaker := bookmaker,
                soft_odds := current_odds, sharp_bookmaker := sp.bookmaker,
                sharp_odds := sp.odds, value_gap := value_gap_pct }, sharp_prices)
      else (none, sharp_prices)
    | none => (none, sharp_prices)
  else (none, sharp_prices)

/-- A cleaned name on the drift sharp list also lies on the classifier sharp
list. -/
theorem drift_sharp_in_sharp (clean : String)
    (h : (DRIFT_SHARP_BOOKMAKERS.map strLower).contains clean = true) :
    (SHARP_BOOKMAKERS.map strLower).contains clean = true := by
  have hmapd : DRIFT_SHARP_BOOKMAKERS.map strLower = ["pinnacle", "betfair"] := by decide
  have hmaps : SHARP_BOOKMAKERS.map strLower = ["pinnacle", "betfair", "bet365"] := by decide
  rw [hmapd] at h
  rw [hmaps]
  simp only [List.contains_cons, List.contains_nil, Bool.or_eq_true, beq_iff_eq] at h ⊢
  rcases h with h | h | h
  · exact Or.inl h
  · exact Or.inr (Or.inl h)
  · cases h

/-- A bookmaker classified soft has a cleaned name outside the classifier
sharp list. -/
theorem classify_soft_not_sharp (b : String) (h : classify_bookmaker b = "soft") :
    (SHARP_BOOKMAKERS.map strLower).contains (strLower (splitFirst b)) = false := by
  unfold classify_bookmaker at h
  by_cases hc : (SHARP_BOOKMAKERS.map strLower).contains (strLower (splitFirst b)) = true
  · rw [if_pos hc] at h
    exact absurd h (by decide)
  · simpa using hc

/-- C7: the tracker emits a value-bet signal exactly on calls by a soft-tier
bookmaker with a stored sharp consensus for the event-outcome key whose gap
formula exceeds the configured threshold, and the signal carries the
outcome, the soft bookmaker and price, the stored sharp bookmaker and
price, and the gap percentage. -/
theorem track_value_opportunity_signal (st : List (String × SharpPrice))
    (event_id bookmaker outcome : String) (current_odds : ℚ) (a : ValueAlert) :
    (track_value_opportunity st event_id bookmaker outcome current_odds).1 = some a ↔
    (classify_bookmaker bookmaker = "soft" ∧
     ∃ sp, lookupKey st (event_id ++ ":" ++ outcome) = some sp ∧
       DRIFT_VALUE_THRESHOLD < (current_odds - sp.odds) / sp.odds * 100 ∧
       a = { event_id := event_id, outcome := outcome, soft_bookmaker := bookmaker,
             soft_odds := current_odds, sharp_bookmaker := sp.bookmaker,
             sharp_odds := sp.odds,
             value_gap := (current_odds - sp.odds) / sp.odds * 100 }) := by
  unfold track_value_opportunity
  by_cases hdrift :
      (DRIFT_SHARP_BOOKMAKERS.map strLower).contains (strLower (splitFirst bookmaker)) = true
  · rw [if_pos hdrift]
    refine iff_of_false ?_ ?_
    · dsimp only
      intro h
      split at h
      · simp at h
      · split at h
        · split at h <;> simp at h
        · simp at h
    · rintro ⟨hsoft, -⟩
      have hss := classify_soft_not_sharp bookmaker hsoft
      rw [drift_sharp_in_sharp _ hdrift] at hss
      cases hss
  · rw [if_neg hdrift]
    by_cases hsoft : classify_bookmaker bookmaker = "soft"
    · rw [if_pos hsoft]
      dsimp only
      split
      next sp hsp =>
        split
        next hgap =>
          dsimp only
          constructor
          · intro h
            injection h with h
            exact ⟨hsoft, sp, hsp, hgap, h.symm⟩
          · rintro ⟨-, sp2, hsp2, -, ha⟩
            rw [hsp] at hsp2
            injection hsp2 with hsp2
            subst hsp2
            exact congrArg some ha.symm
        next hgap =>
          refine iff_of_false (by simp) ?_
          rintro ⟨-, sp2, hsp2, hgap2, -⟩
          rw [hsp] at hsp2
          injection hsp2 with hsp2
          subst hsp2
          exact hgap hgap2
      next hsp =>
        refine iff_of_false (by simp) ?_
        rintro ⟨-, sp2, hsp2, -, -⟩
        rw [hsp] at hsp2
        cases hsp2
    · rw [if_neg hsoft]
      refine iff_of_false (by simp) ?_
      rintro ⟨hsoft2, -⟩
      exact hsoft hsoft2

/-- Witness for C7: soft bookmaker 1xbet at 1.90 against a stored pinnacle
consensus of 1.80 (a 5.55 percent gap over the 5 percent threshold) emits
the value-bet signal. -/
theorem track_value_opportunity_signal_witness :
    (track_value_opportunity [("e1:Lakers", { bookmaker := "pinnacle", odds := mkRat 9 5 })]
       "e1" "1xbet" "Lakers" (mkRat 19 10)).1
      = some { event_id := "e1", outcome := "Lakers", soft_bookmaker := "1xbet",
               soft_odds := mkRat 19 10, sharp_bookmaker := "pinnacle",
               sharp_odds := mkRat 9 5,
               value_gap := (mkRat 19 10 - mkRat 9 5) / mkRat 9 5 * 100 } :=
  (track_value_opportunity_signal
      [("e1:Lakers", { bookmaker := "pinnacle", odds := mkRat 9 5 })]
      "e1" "1xbet" "Lakers" (mkRat 19 10) _).mpr
    ⟨by decide, { bookmaker := "pinnacle", odds := mkRat 9 5 },
     by with_unfolding_all decide, by with_unfolding_all decide, rfl⟩

/-- One call to the value tracker, for folding over call sequences. -/
structure ValueCall where
  event_id : String
  bookmaker : String
  outcome : String
  odds : ℚ
deriving DecidableEq, Inhabited

/-- Runs a sequence of track_value_opportunity calls on the sharp-price
store, keeping only the final store. -/
def runValueCalls (st : List (String × SharpPrice)) (calls : List ValueCall) :
    List (String × SharpPrice) :=
  calls.foldl
    (fun s c => (track_value_opportunity s c.event_id c.bookmaker c.outcome c.odds).2) st

/-- Single-step behaviour of the stored consensus at an occupied key: either
untouched, or replaced by the call odds under the strict-drop guard. -/
theorem track_value_opportunity_sharp_step (st : List (String × SharpPrice))
    (eid bk outc : String) (odds : ℚ) (key : String) (p : SharpPrice)
    (hp : lookupKey st key = some p) :
    ∃ p2, lookupKey (track_value_opportunity st eid bk outc odds).2 key = some p2 ∧
      (p2 = p ∨ (p2 = { bookmaker := bk, odds := odds } ∧ odds < p.odds ∧
        3 < (p.odds - odds) / p.odds * 100)) := by
  unfold track_value_opportunity
  by_cases hdrift :
      (DRIFT_SHARP_BOOKMAKERS.map strLower).contains (strLower (splitFirst bk)) = true
  · rw [if_pos hdrift]
    dsimp only
    by_cases hkey : (eid ++ ":" ++ outc) = key
    · subst hkey
      rw [hp]
      dsimp only
      split
      next hlt =>
        split
        next hdrop =>
          exact ⟨{ bookmaker := bk, odds := odds },
            lookupKey_setKey_self st _ _, Or.inr ⟨rfl, hlt, hdrop⟩⟩
        next => exact ⟨p, hp, Or.inl rfl⟩
      next => exact ⟨p, hp, Or.inl rfl⟩
    · split
      next hnone =>
        exact ⟨p, by
          rw [lookupKey_setKey_ne st _ _ _ (fun hh => hkey hh.symm)]
          exact hp, Or.inl rfl⟩
      next prev hprev =>
        split
        next =>
          split
          next =>
            exact ⟨p, by
              rw [lookupKey_setKey_ne st _ _ _ (fun hh => hkey hh.symm)]
              exact hp, Or.inl rfl⟩
          next => exact ⟨p, hp, Or.inl rfl⟩
        next => exact ⟨p, hp, Or.inl rfl⟩
  · rw [if_neg hdrift]
    by_cases hsoft : classify_bookmaker bk = "soft"
    · rw [if_pos hsoft]
      dsimp only
      split
      next sp hsp =>
        split
        next => exact ⟨p, hp, Or.inl rfl⟩
        next => exact ⟨p, hp, Or.inl rfl⟩
      next => exact ⟨p, hp, Or.inl rfl⟩
    · rw [if_neg hsoft]
      exact ⟨p, hp, Or.inl rfl⟩

/-- C10: a stored sharp-consensus entry never increases across any sequence
of tracker calls, and a single call replaces it only with the call odds
under the more-than-3-percent strict drop guard. -/
theorem sharp_consensus_monotone (calls : List ValueCall) (st : List (String × SharpPrice))
    (key : String) (p : SharpPrice) (hp : lookupKey st key = some p) :
    (∃ p2, lookupKey (runValueCalls st calls) key = some p2 ∧ p2.odds ≤ p.odds) ∧
    (∀ eid bk outc odds p2,
      lookupKey (track_value_opportunity st eid bk outc odds).2 key = some p2 →
      p2 = p ∨ (p2 = { bookmaker := bk, odds := odds } ∧ odds < p.odds ∧
        3 < (p.odds - odds) / p.odds * 100)) := by
  constructor
  · induction calls generalizing st p with
    | nil => exact ⟨p, hp, le_refl _⟩
    | cons c rest ih =>
      obtain ⟨p2, hp2, hcase⟩ :=
        track_value_opportunity_sharp_step st c.event_id c.bookmaker c.outcome c.odds key p hp
      obtain ⟨p3, hp3, hle⟩ := ih _ _ hp2
      refine ⟨p3, hp3, ?_⟩
      rcases hcase with rfl | ⟨rfl, hlt, -⟩
      · exact hle
      · exact le_trans hle (le_of_lt hlt)
  · intro eid bk outc odds p2 h2
    obtain ⟨p3, hp3, hcase⟩ := track_value_opportunity_sharp_step st eid bk outc odds key p hp
    rw [h2] at hp3
    injection hp3 with hp3
    subst hp3
    exact hcase

/-- Witness for C10: a stored pinnacle consensus of 1.80 and a later
pinnacle rise to 2.00. -/
theorem sharp_consensus_monotone_witness :
    (∃ p2, lookupKey
        (runValueCalls [("e1:Lakers", { bookmaker := "pinnacle", odds := mkRat 9 5 })]
          [{ event_id := "e1", bookmaker := "pinnacle", outcome := "Lakers", odds := 2 }])
        "e1:Lakers" = some p2 ∧
      p2.odds ≤ ({ bookmaker := "pinnacle", odds := mkRat 9 5 } : SharpPrice).odds) ∧
    (∀ eid bk outc odds p2,
      lookupKey (track_value_opportunity
          [("e1:Lakers", { bookmaker := "pinnacle", odds := mkRat 9 5 })]
          eid bk outc odds).2 "e1:Lakers" = some p2 →
      p2 = { bookmaker := "pinnacle", odds := mkRat 9 5 } ∨
      (p2 = { bookmaker := bk, odds := odds } ∧
        odds < ({ bookmaker := "pinnacle", odds := mkRat 9 5 } : SharpPrice).odds ∧
        3 < (({ bookmaker := "pinnacle", odds := mkRat 9 5 } : SharpPrice).odds - odds) /
            ({ bookmaker := "pinnacle", odds := mkRat 9 5 } : SharpPrice).odds * 100)) :=
  sharp_consensus_monotone
    [{ event_id := "e1", bookmaker := "pinnacle", outcome := "Lakers", odds := 2 }]
    [("e1:Lakers", { bookmaker := "pinnacle", odds := mkRat 9 5 })]
    "e1:Lakers" { bookmaker := "pinnacle", odds := mkRat 9 5 } (by decide)

end Freedom
